import Mathlib

/-
Verification of the cancellation primitive and server loop of the
tendermint-rs ABCI server, together with the RPC UUID utility.

The embedding follows the Rust sources:
  * abci/src/cancellation.rs : a process-wide static atomic flag, a unit-struct
    CancellationToken whose operations act on that shared flag, and a
    TokenDropGuard that cancels on drop unless disarmed.
  * abci/src/server.rs : an accept loop, a per-connection handler loop and a
    polling supervisor loop inside listen().
  * rpc/src/utils.rs : uuid_str, which draws 16 random bytes, stamps the
    RFC4122 variant and version-4 bits via the uuid builder, and formats the
    result as the standard hyphenated lowercase-hex string.

Panics are modelled with Except: an operation that can unwind returns
Except (String x CancelSt) (A x CancelSt); the error carries the panic
message and the shared state, which survives unwinding (it is a static).
Machine bytes (u8) are Nat with an explicit bound of 256.
-/

namespace TendermintRs

namespace Cancellation

/-- Shared cancellation state. The Bool is the process-wide
static FLAG: AtomicBool of abci/src/cancellation.rs (initially false);
cancelCount counts how many times cancel() has stored true, so that
"triggers cancellation exactly once" is statable. -/
structure CancelSt where
  flag : Bool
  cancelCount : Nat
deriving Repr, DecidableEq

/-- Initial shared state: FLAG starts false and no cancel has run. -/
def CancelSt.init : CancelSt := ⟨false, 0⟩

/-- Fixed panic marker CANCEL_PANIC_MSG from abci/src/cancellation.rs. -/
def CANCEL_PANIC_MSG : String := "requested cancellation"

/-- Result of an operation that can panic: either a panic message together
with the shared state left behind, or a value and the shared state. -/
abbrev PanicOr (α : Type) := Except (String × CancelSt) (α × CancelSt)

/-- CancellationToken is a unit struct: it carries no state of its own,
all state lives in the shared static flag. -/
structure CancellationToken where
deriving Repr, DecidableEq

/-- CancellationToken::new. -/
def CancellationToken.new : CancellationToken := ⟨⟩

/-- Copy/Clone of a token: tokens are empty values, cloning is the identity. -/
def CancellationToken.clone (t : CancellationToken) : CancellationToken := t

/-- CancellationToken::is_cancelled: relaxed load of the shared flag.
The token argument is irrelevant because the flag is a static. -/
def CancellationToken.is_cancelled (_ : CancellationToken) (s : CancelSt) : Bool :=
  s.flag

/-- CancellationToken::cancel: relaxed store of true into the shared flag. -/
def CancellationToken.cancel (_ : CancellationToken) (s : CancelSt) : CancelSt :=
  ⟨true, s.cancelCount + 1⟩

/-- CancellationToken::panic_if_cancelled. The source body is the single
statement panic!("{CANCEL_PANIC_MSG}"): it raises unconditionally, with no
read of the flag, so the embedding returns an error at every state. -/
def CancellationToken.panic_if_cancelled (_ : CancellationToken) (s : CancelSt) :
    PanicOr Unit :=
  Except.error (CANCEL_PANIC_MSG, s)

/-- CancellationToken::cancel_and_panic: cancel(), then panic_if_cancelled(),
then unreachable!() (modelled as the panic unreachable!() would raise). -/
def CancellationToken.cancel_and_panic (t : CancellationToken) (s : CancelSt) :
    PanicOr Unit :=
  match t.panic_if_cancelled (t.cancel s) with
  | Except.error e => Except.error e
  | Except.ok (_, s2) => Except.error ("internal error: entered unreachable code", s2)

/-- TokenDropGuard: an armed flag plus the captured token. The PhantomData
marker has no runtime content and is omitted. -/
structure TokenDropGuard where
  flag : Bool
  token : CancellationToken
deriving Repr, DecidableEq

/-- TokenDropGuard::new: guards start armed (flag = true). -/
def TokenDropGuard.new (token : CancellationToken) : TokenDropGuard :=
  ⟨true, token⟩

/-- CancellationToken::drop_guard. -/
def CancellationToken.drop_guard (t : CancellationToken) : TokenDropGuard :=
  TokenDropGuard.new t.clone

/-- TokenDropGuard::disarm: clears the armed flag (the guard is then
immediately dropped, since disarm consumes self). -/
def TokenDropGuard.disarm (g : TokenDropGuard) : TokenDropGuard :=
  ⟨false, g.token⟩

/-- Drop for TokenDropGuard: if still armed, cancel via the captured token. -/
def TokenDropGuard.drop (g : TokenDropGuard) (s : CancelSt) : CancelSt :=
  if g.flag then g.token.cancel s else s

/-- One step of an arbitrary interleaving of token operations, described by
the effect each source operation has on the shared state. Panicking
operations leave behind the state carried by their error. -/
inductive TokenOp
  | cancel
  | is_cancelled
  | panic_if_cancelled
  | drop_armed
  | drop_disarmed
  | cancel_and_panic
deriving Repr, DecidableEq

/-- Effect of one token operation on the shared state, extracted from the
operation definitions above. -/
def TokenOp.apply : TokenOp → CancelSt → CancelSt
  | TokenOp.cancel, s => CancellationToken.new.cancel s
  | TokenOp.is_cancelled, s => s
  | TokenOp.panic_if_cancelled, s =>
      match CancellationToken.new.panic_if_cancelled s with
      | Except.error (_, s1) => s1
      | Except.ok (_, s1) => s1
  | TokenOp.drop_armed, s => (CancellationToken.new.drop_guard).drop s
  | TokenOp.drop_disarmed, s => ((CancellationToken.new.drop_guard).disarm).drop s
  | TokenOp.cancel_and_panic, s =>
      match CancellationToken.new.cancel_and_panic s with
      | Except.error (_, s1) => s1
      | Except.ok (_, s1) => s1

/-- Run a sequence of token operations on the shared state. -/
def runOps (ops : List TokenOp) (s : CancelSt) : CancelSt :=
  ops.foldl (fun s1 op => op.apply s1) s

theorem TokenOp.apply_flag_mono (op : TokenOp) (s : CancelSt) (h : s.flag = true) :
    (op.apply s).flag = true := by
  cases op <;>
    simp [TokenOp.apply, CancellationToken.cancel, CancellationToken.panic_if_cancelled,
      CancellationToken.cancel_and_panic, CancellationToken.drop_guard,
      CancellationToken.clone, TokenDropGuard.new, TokenDropGuard.disarm,
      TokenDropGuard.drop, h]

theorem runOps_flag_mono (ops : List TokenOp) (s : CancelSt) (h : s.flag = true) :
    (runOps ops s).flag = true := by
  induction ops generalizing s with
  | nil => exact h
  | cons op rest ih =>
      simp only [runOps, List.foldl_cons] at *
      exact ih (op.apply s) (op.apply_flag_mono s h)

/-- C2: the cancellation flag is monotonic, idempotent and shared by all
tokens: whatever operations run before, after any token t's cancel() the
flag is true, and whatever operations run afterwards, is_cancelled() on
every token u still returns true — no operation ever resets the flag. -/
theorem cancel_monotone_idempotent_shared (pre post : List TokenOp) (s : CancelSt)
    (t u : CancellationToken) :
    u.is_cancelled (runOps post (t.cancel (runOps pre s))) = true := by
  have h : (t.cancel (runOps pre s)).flag = true := rfl
  simpa [CancellationToken.is_cancelled] using
    runOps_flag_mono post (t.cancel (runOps pre s)) h

/-- C1: panic_if_cancelled is not conditional in the source — it raises the
"requested cancellation" panic even in the initial state, where the flag is
false and the claim says it must return normally. -/
theorem panic_if_cancelled_unconditional :
    CancelSt.init.flag = false ∧
    CancellationToken.new.panic_if_cancelled CancelSt.init =
      Except.error (CANCEL_PANIC_MSG, CancelSt.init) :=
  ⟨rfl, rfl⟩

/-- C3: guards are created armed; dropping a disarmed guard leaves the shared
state untouched (never triggers cancellation); dropping a still-armed guard
sets the flag and increments the cancel count by exactly one. -/
theorem drop_guard_disarm_drop (t : CancellationToken) (g : TokenDropGuard)
    (s : CancelSt) :
    (t.drop_guard).flag = true ∧
    (g.disarm).drop s = s ∧
    (g.flag = true →
      (g.drop s).flag = true ∧ (g.drop s).cancelCount = s.cancelCount + 1) := by
  refine ⟨rfl, ?_, ?_⟩
  · simp [TokenDropGuard.disarm, TokenDropGuard.drop]
  · intro h
    simp [TokenDropGuard.drop, CancellationToken.cancel, h]

theorem drop_guard_disarm_drop_witness :
    ((CancellationToken.new.drop_guard).flag = true ∧
      ((TokenDropGuard.new CancellationToken.new).disarm).drop CancelSt.init =
        CancelSt.init ∧
      ((TokenDropGuard.new CancellationToken.new).flag = true →
        ((TokenDropGuard.new CancellationToken.new).drop CancelSt.init).flag = true ∧
        ((TokenDropGuard.new CancellationToken.new).drop CancelSt.init).cancelCount =
          CancelSt.init.cancelCount + 1)) ∧
    ((TokenDropGuard.new CancellationToken.new).drop CancelSt.init).cancelCount =
      CancelSt.init.cancelCount + 1 :=
  ⟨drop_guard_disarm_drop CancellationToken.new
      (TokenDropGuard.new CancellationToken.new) CancelSt.init,
    ((drop_guard_disarm_drop CancellationToken.new
      (TokenDropGuard.new CancellationToken.new) CancelSt.init).2.2 rfl).2⟩

/-- C7: cancel_and_panic first stores true into the shared flag, then raises
the panic carrying the fixed "requested cancellation" marker; it never
returns normally, and in the state it leaves behind every token observes
is_cancelled() = true. -/
theorem cancel_and_panic_sets_flag_then_raises (t u : CancellationToken)
    (s : CancelSt) :
    t.cancel_and_panic s = Except.error (CANCEL_PANIC_MSG, t.cancel s) ∧
    (t.cancel s).flag = true ∧
    u.is_cancelled (t.cancel s) = true :=
  ⟨rfl, rfl, rfl⟩

end Cancellation

namespace Server

open Cancellation

/-- Modelled from the spec: the Error type of abci/src/error.rs is not under
src/; server.rs only wraps accept-loop I/O errors with Error::io, so a
single io constructor carrying a message suffices. -/
inductive Error
  | io (msg : String)
deriving Repr, DecidableEq

/-- Outcome of one listener.accept() call, as seen by the accept loop
(stream plus peer address on success, an I/O error otherwise). -/
inductive AcceptResult (Conn : Type)
  | ok (stream : Conn) (addr : String)
  | err (e : Error)
deriving Repr, DecidableEq

/-- Record of one spawn_client_handler call: the accepted stream and address,
the cloned application, the configured read-buffer size and the cloned token. -/
structure Spawned (Conn App : Type) where
  stream : Conn
  addr : String
  app : App
  read_buf_size : Nat
  token : CancellationToken
deriving Repr, DecidableEq

/-- Accept loop of Server::listen (the dedicated accept thread), over a finite
trace of accept outcomes: while the token is not cancelled, accept; on success
spawn a handler with the stream, address, cloned app, buffer size and cloned
token; on error cancel via the token and go round the loop again (which then
exits at the while check). An exhausted trace models accept() blocking.
The token semantics are modelled from the spec: server.rs takes its
CancellationSource/CancellationToken from the external gancellation_token
crate, which the spec describes as the same single shared monotonic flag. -/
def acceptLoop {Conn App : Type} (token : CancellationToken) (app : App)
    (read_buf_size : Nat) :
    List (AcceptResult Conn) → CancelSt → List (Spawned Conn App) × CancelSt
  | [], s => ([], s)
  | r :: rest, s =>
    if token.is_cancelled s then ([], s)
    else
      match r with
      | AcceptResult.ok stream addr =>
          let p := acceptLoop token app read_buf_size rest s
          (⟨stream, addr, app, read_buf_size, token.clone⟩ :: p.1, p.2)
      | AcceptResult.err _ =>
          acceptLoop token app read_buf_size rest (token.cancel s)

/-- Supervisor loop at the bottom of Server::listen: poll the shared flag
(one reading per 100ms sleep, given as a trace of readings indexed by poll
number), and return Ok(()) once a reading is true. Fuel bounds how many polls
we observe; none means the loop was still polling after fuel readings. -/
def superviseFuel (reads : Nat → Bool) : Nat → Nat → Option (Except Error Unit)
  | _, 0 => none
  | i, fuel + 1 =>
      if reads i then some (Except.ok ()) else superviseFuel reads (i + 1) fuel

theorem acceptLoop_cancelled {Conn App : Type} (token : CancellationToken)
    (app : App) (buf : Nat) (evs : List (AcceptResult Conn)) (s : CancelSt)
    (h : s.flag = true) :
    acceptLoop token app buf evs s = ([], s) := by
  cases evs with
  | nil => rfl
  | cons r rest => simp [acceptLoop, CancellationToken.is_cancelled, h]

/-- C4: with the flag still clear, an accept error makes the loop cancel
exactly once (cancel count up by one, flag set) and perform no further
accepts (no spawns, the rest of the trace untouched), after which one
supervisor poll of the resulting flag returns Ok — listen() returns; a
successful accept instead spawns exactly one handler carrying the stream,
address, cloned app, buffer size and cloned token, then continues. -/
theorem accept_error_cancels_once_and_stops {Conn App : Type}
    (token : CancellationToken) (app : App) (buf : Nat) (e : Error)
    (stream : Conn) (addr : String) (rest : List (AcceptResult Conn))
    (s : CancelSt) (h : s.flag = false) :
    acceptLoop token app buf (AcceptResult.err e :: rest) s =
      ([], ⟨true, s.cancelCount + 1⟩) ∧
    superviseFuel
      (fun _ => (acceptLoop token app buf (AcceptResult.err e :: rest) s).2.flag)
      0 1 = some (Except.ok ()) ∧
    acceptLoop token app buf (AcceptResult.ok stream addr :: rest) s =
      (⟨stream, addr, app, buf, token.clone⟩ ::
          (acceptLoop token app buf rest s).1,
        (acceptLoop token app buf rest s).2) := by
  have herr : acceptLoop token app buf (AcceptResult.err e :: rest) s =
      ([], ⟨true, s.cancelCount + 1⟩) := by
    have hc : token.cancel s = (⟨true, s.cancelCount + 1⟩ : CancelSt) := rfl
    have hrest : acceptLoop token app buf rest
        (⟨true, s.cancelCount + 1⟩ : CancelSt) =
        ([], (⟨true, s.cancelCount + 1⟩ : CancelSt)) :=
      acceptLoop_cancelled token app buf rest _ rfl
    simp [acceptLoop, CancellationToken.is_cancelled, h, hc, hrest]
  refine ⟨herr, ?_, ?_⟩
  · simp [herr, superviseFuel]
  · simp [acceptLoop, CancellationToken.is_cancelled, h]

/-- Concrete error trace for the C4 witness, with connections drawn from Nat. -/
def errTrace : List (AcceptResult Nat) :=
  [AcceptResult.err (Error.io "closed")]

theorem accept_error_cancels_once_and_stops_witness :
    acceptLoop CancellationToken.new (0 : Nat) 1024 errTrace CancelSt.init =
      ([], ⟨true, CancelSt.init.cancelCount + 1⟩) ∧
    superviseFuel
      (fun _ => (acceptLoop CancellationToken.new (0 : Nat) 1024
        errTrace CancelSt.init).2.flag) 0 1 =
      some (Except.ok ()) ∧
    acceptLoop CancellationToken.new (0 : Nat) 1024
        (AcceptResult.ok (7 : Nat) "peer" :: errTrace) CancelSt.init =
      (⟨(7 : Nat), "peer", (0 : Nat), 1024, CancellationToken.new.clone⟩ ::
          (acceptLoop CancellationToken.new (0 : Nat) 1024 errTrace CancelSt.init).1,
        (acceptLoop CancellationToken.new (0 : Nat) 1024 errTrace CancelSt.init).2) := by
  have h := accept_error_cancels_once_and_stops CancellationToken.new (0 : Nat)
    1024 (Error.io "closed") (7 : Nat) "peer" [AcceptResult.err (Error.io "closed")]
    CancelSt.init rfl
  simpa [errTrace] using h

theorem superviseFuel_reaches {reads : Nat → Bool} :
    ∀ (fuel i : Nat), (∃ m, i ≤ m ∧ m < i + fuel ∧ reads m = true) →
      superviseFuel reads i fuel = some (Except.ok ()) := by
  intro fuel
  induction fuel with
  | zero =>
      intro i ⟨m, h1, h2, _⟩
      omega
  | succ n ih =>
      intro i ⟨m, h1, h2, h3⟩
      by_cases hi : reads i
      · simp [superviseFuel, hi]
      · have hm : i ≠ m := by
          intro he
          rw [he] at hi
          exact hi h3
        have : superviseFuel reads (i + 1) n = some (Except.ok ()) := by
          refine ih (i + 1) ⟨m, by omega, by omega, h3⟩
        simp [superviseFuel, hi, this]

/-- C5: once the shared flag is set (reading n of the flag trace is true),
the supervisor loop of listen() terminates within n+1 polls — it needs
nothing beyond the flag, in particular no thread join — and listen returns
success. -/
theorem listen_returns_ok_once_cancelled (reads : Nat → Bool) (n fuel : Nat)
    (hset : reads n = true) (hfuel : n < fuel) :
    superviseFuel reads 0 fuel = some (Except.ok ()) :=
  superviseFuel_reaches fuel 0 ⟨n, Nat.zero_le n, by omega, hset⟩

theorem listen_returns_ok_once_cancelled_witness :
    superviseFuel (fun i => decide (2 ≤ i)) 0 3 = some (Except.ok ()) :=
  listen_returns_ok_once_cancelled (fun i => decide (2 ≤ i)) 2 3 (by decide)
    (by decide)

/-- C8: listen() never reports failure — whenever the supervisor loop of
listen() returns at all, the value it returns is Ok(()); no Err of the
Error type ever reaches the caller. -/
theorem listen_never_errors (reads : Nat → Bool) (i fuel : Nat)
    (r : Except Error Unit) (h : superviseFuel reads i fuel = some r) :
    r = Except.ok () := by
  induction fuel generalizing i with
  | zero => simp [superviseFuel] at h
  | succ n ih =>
      by_cases hi : reads i
      · simp [superviseFuel, hi] at h
        exact h.symm
      · simp only [superviseFuel, hi, if_false, Bool.false_eq_true] at h
        exact ih (i + 1) h

theorem listen_never_errors_witness :
    (Except.ok () : Except Error Unit) = Except.ok () :=
  listen_never_errors (fun _ => true) 0 1 (Except.ok ()) rfl

/-- One iteration's worth of transport events seen by Server::handle_client:
codec.next() yields a decoded request (recv_ok, with the outcome of the
subsequent codec.send recorded alongside), a decode/transport error
(recv_err), or end-of-stream (recv_eof). -/
inductive ConnEvent (Req : Type)
  | recv_ok (r : Req) (send_ok : Bool)
  | recv_err
  | recv_eof
deriving Repr, DecidableEq

/-- Why the handler loop of Server::handle_client stopped. -/
inductive ExitKind
  | cancelled
  | read_err
  | eof
  | write_err
  | blocked
deriving Repr, DecidableEq

/-- Per-connection handler loop of Server::handle_client, over a finite trace
of transport events: while the token is not cancelled, read the next request
(a read error or end-of-stream ends this loop only), dispatch it to the
application together with the token, and send the response (a send error ends
this loop only). The application is an arbitrary function that may touch the
shared state through the token it is handed. An exhausted trace models a read
that blocks. Returns the shared state at exit and the exit path taken. -/
def handle_client {Req Resp : Type}
    (app : Req → CancellationToken → CancelSt → Resp × CancelSt)
    (token : CancellationToken) :
    List (ConnEvent Req) → CancelSt → CancelSt × ExitKind
  | [], s => (s, ExitKind.blocked)
  | e :: rest, s =>
    if token.is_cancelled s then (s, ExitKind.cancelled)
    else
      match e with
      | ConnEvent.recv_err => (s, ExitKind.read_err)
      | ConnEvent.recv_eof => (s, ExitKind.eof)
      | ConnEvent.recv_ok r send_ok =>
          let p := app r token s
          if send_ok then handle_client app token rest p.2
          else (p.2, ExitKind.write_err)

/-- C6: connection-local faults never escalate. For an application whose
handler leaves the shared state alone, the handler loop returns the shared
state unchanged on every trace — no exit path sets the flag or triggers
cancellation — and with the flag clear, a read error, an end-of-stream and a
send failure each merely end this connection's loop with the matching local
exit path. -/
theorem connection_faults_stay_local {Req Resp : Type}
    (app : Req → CancellationToken → CancelSt → Resp × CancelSt)
    (token : CancellationToken)
    (happ : ∀ r t s, (app r t s).2 = s)
    (evs : List (ConnEvent Req)) (s : CancelSt) :
    (handle_client app token evs s).1 = s ∧
    (s.flag = false →
      (∀ rest, handle_client app token (ConnEvent.recv_err :: rest) s =
        (s, ExitKind.read_err)) ∧
      (∀ rest, handle_client app token (ConnEvent.recv_eof :: rest) s =
        (s, ExitKind.eof)) ∧
      (∀ r rest, handle_client app token (ConnEvent.recv_ok r false :: rest) s =
        (s, ExitKind.write_err))) := by
  constructor
  · induction evs generalizing s with
    | nil => rfl
    | cons e rest ih =>
        by_cases hf : s.flag = true
        · simp [handle_client, CancellationToken.is_cancelled, hf]
        · cases e with
          | recv_err => simp [handle_client, CancellationToken.is_cancelled, hf]
          | recv_eof => simp [handle_client, CancellationToken.is_cancelled, hf]
          | recv_ok r send_ok =>
              cases send_ok with
              | false =>
                  simp [handle_client, CancellationToken.is_cancelled, hf, happ]
              | true =>
                  have := ih (app r token s).2
                  simp [handle_client, CancellationToken.is_cancelled, hf,
                    happ] at this ⊢
                  simpa [happ] using this
  · intro hf
    refine ⟨?_, ?_, ?_⟩
    · intro rest
      simp [handle_client, CancellationToken.is_cancelled, hf]
    · intro rest
      simp [handle_client, CancellationToken.is_cancelled, hf]
    · intro r rest
      simp [handle_client, CancellationToken.is_cancelled, hf, happ]

theorem connection_faults_stay_local_witness :
    (handle_client (fun (r : Nat) (_ : CancellationToken) s => (r + 1, s))
        CancellationToken.new
        [ConnEvent.recv_ok 5 true, ConnEvent.recv_err] CancelSt.init).1 =
      CancelSt.init ∧
    handle_client (fun (r : Nat) (_ : CancellationToken) s => (r + 1, s))
        CancellationToken.new
        (ConnEvent.recv_err :: ([] : List (ConnEvent Nat))) CancelSt.init =
      (CancelSt.init, ExitKind.read_err) :=
  ⟨(connection_faults_stay_local
      (fun (r : Nat) (_ : CancellationToken) s => (r + 1, s))
      CancellationToken.new (fun _ _ _ => rfl)
      [ConnEvent.recv_ok 5 true, ConnEvent.recv_err] CancelSt.init).1,
    ((connection_faults_stay_local
      (fun (r : Nat) (_ : CancellationToken) s => (r + 1, s))
      CancellationToken.new (fun _ _ _ => rfl)
      ([] : List (ConnEvent Nat)) CancelSt.init).2 rfl).1 []⟩

end Server

namespace Rpc

/-- Lowercase hexadecimal digit for a nibble below 16. -/
def hexDigit (n : Nat) : Char :=
  if n < 10 then Char.ofNat (48 + n) else Char.ofNat (87 + n)

/-- High hex digit of a byte (the byte's upper nibble). -/
def byteHi (b : Nat) : Char := hexDigit (b / 16)

/-- Low hex digit of a byte (the byte's lower nibble). -/
def byteLo (b : Nat) : Char := hexDigit (b % 16)

/-- uuid::Builder::set_variant(Variant::RFC4122): byte 8 becomes
(byte8 AND 0x3f) OR 0x80, i.e. byte8 % 64 + 128. -/
def set_variant_rfc4122 (b : Fin 16 → Nat) : Fin 16 → Nat :=
  fun i => if i.val = 8 then b i % 64 + 128 else b i

/-- uuid::Builder::set_version(Version::Random): byte 6 becomes
(byte6 AND 0x0f) OR 0x40, i.e. byte6 % 16 + 64. -/
def set_version_random (b : Fin 16 → Nat) : Fin 16 → Nat :=
  fun i => if i.val = 6 then b i % 16 + 64 else b i

/-- Hyphenated lowercase-hex rendering of 16 bytes in the standard
8-4-4-4-12 UUID layout, as produced by uuid::Uuid::to_string. -/
def uuidChars (c : Fin 16 → Nat) : List Char :=
  [byteHi (c 0), byteLo (c 0), byteHi (c 1), byteLo (c 1),
   byteHi (c 2), byteLo (c 2), byteHi (c 3), byteLo (c 3), '-',
   byteHi (c 4), byteLo (c 4), byteHi (c 5), byteLo (c 5), '-',
   byteHi (c 6), byteLo (c 6), byteHi (c 7), byteLo (c 7), '-',
   byteHi (c 8), byteLo (c 8), byteHi (c 9), byteLo (c 9), '-',
   byteHi (c 10), byteLo (c 10), byteHi (c 11), byteLo (c 11),
   byteHi (c 12), byteLo (c 12), byteHi (c 13), byteLo (c 13),
   byteHi (c 14), byteLo (c 14), byteHi (c 15), byteLo (c 15)]

/-- rpc/src/utils.rs uuid_str, given the 16 bytes the entropy source
produced: stamp the RFC4122 variant, then the version-4 bits, then render
the hyphenated lowercase-hex string. -/
def uuid_str (b : Fin 16 → Nat) : String :=
  String.mk (uuidChars (set_version_random (set_variant_rfc4122 b)))

/-- uuid_str including the getrandom call: a failing entropy source makes
the expect raise the "RNG failure!" panic, otherwise the formatted string is
returned. -/
def uuid_str_run (entropy : Except String (Fin 16 → Nat)) : Except String String :=
  match entropy with
  | Except.error _ => Except.error "RNG failure!"
  | Except.ok bytes => Except.ok (uuid_str bytes)

/-- Character is one of the sixteen lowercase hex digits: a decimal digit
(codes 48-57) or a letter from a to f (codes 97-102). -/
def isHexLowerChar (ch : Char) : Bool :=
  (48 ≤ ch.toNat && ch.toNat ≤ 57) || (97 ≤ ch.toNat && ch.toNat ≤ 102)

theorem hexDigit_mem_of_lt (n : Nat) (h : n < 16) :
    isHexLowerChar (hexDigit n) = true := by
  interval_cases n <;> decide

theorem byteHi_hex (b : Nat) (h : b < 256) : isHexLowerChar (byteHi b) = true :=
  hexDigit_mem_of_lt (b / 16) (by omega)

theorem byteLo_hex (b : Nat) : isHexLowerChar (byteLo b) = true :=
  hexDigit_mem_of_lt (b % 16) (by omega)

theorem set_bits_lt (b : Fin 16 → Nat) (hb : ∀ i, b i < 256) (i : Fin 16) :
    set_version_random (set_variant_rfc4122 b) i < 256 := by
  have := hb i
  simp only [set_version_random, set_variant_rfc4122]
  split <;> split <;> omega

theorem uuidChars_hex_or_hyphen (c : Fin 16 → Nat) (hc : ∀ i, c i < 256) :
    ∀ ch ∈ uuidChars c, ch = '-' ∨ isHexLowerChar ch = true := by
  simp only [uuidChars, List.forall_mem_cons, List.not_mem_nil, false_implies,
    implies_true, and_true]
  exact ⟨Or.inr (byteHi_hex _ (hc 0)), Or.inr (byteLo_hex _),
    Or.inr (byteHi_hex _ (hc 1)), Or.inr (byteLo_hex _),
    Or.inr (byteHi_hex _ (hc 2)), Or.inr (byteLo_hex _),
    Or.inr (byteHi_hex _ (hc 3)), Or.inr (byteLo_hex _), Or.inl trivial,
    Or.inr (byteHi_hex _ (hc 4)), Or.inr (byteLo_hex _),
    Or.inr (byteHi_hex _ (hc 5)), Or.inr (byteLo_hex _), Or.inl trivial,
    Or.inr (byteHi_hex _ (hc 6)), Or.inr (byteLo_hex _),
    Or.inr (byteHi_hex _ (hc 7)), Or.inr (byteLo_hex _), Or.inl trivial,
    Or.inr (byteHi_hex _ (hc 8)), Or.inr (byteLo_hex _),
    Or.inr (byteHi_hex _ (hc 9)), Or.inr (byteLo_hex _), Or.inl trivial,
    Or.inr (byteHi_hex _ (hc 10)), Or.inr (byteLo_hex _),
    Or.inr (byteHi_hex _ (hc 11)), Or.inr (byteLo_hex _),
    Or.inr (byteHi_hex _ (hc 12)), Or.inr (byteLo_hex _),
    Or.inr (byteHi_hex _ (hc 13)), Or.inr (byteLo_hex _),
    Or.inr (byteHi_hex _ (hc 14)), Or.inr (byteLo_hex _),
    Or.inr (byteHi_hex _ (hc 15)), Or.inr (byteLo_hex _)⟩

/-- C9: for every 16-byte input from the entropy source, uuid_str returns
the hyphenated lowercase-hex rendering of those bytes with the RFC4122
variant and version-4 bits stamped: 36 characters, hyphens exactly at
positions 8, 13, 18 and 23, the version nibble at position 14 equal to 4,
the variant nibble at position 19 in 8..b, and every other character a hex
digit; and the operation panics with "RNG failure!" exactly when the entropy
source fails, returning the formatted string otherwise. -/
theorem uuid_str_format (b : Fin 16 → Nat) (hb : ∀ i, b i < 256) :
    (uuid_str b).length = 36 ∧
    (uuid_str b).data = uuidChars (set_version_random (set_variant_rfc4122 b)) ∧
    (uuid_str b).data[8]? = some '-' ∧
    (uuid_str b).data[13]? = some '-' ∧
    (uuid_str b).data[18]? = some '-' ∧
    (uuid_str b).data[23]? = some '-' ∧
    (uuid_str b).data[14]? = some '4' ∧
    (∃ ch, (uuid_str b).data[19]? = some ch ∧
      (ch = '8' ∨ ch = '9' ∨ ch = 'a' ∨ ch = 'b')) ∧
    (∀ ch ∈ (uuid_str b).data, ch = '-' ∨ isHexLowerChar ch = true) ∧
    (∀ msg, uuid_str_run (Except.error msg) = Except.error "RNG failure!") ∧
    uuid_str_run (Except.ok b) = Except.ok (uuid_str b) := by
  have h6 : set_version_random (set_variant_rfc4122 b) 6 = b 6 % 16 + 64 := rfl
  have h8 : set_version_random (set_variant_rfc4122 b) 8 = b 8 % 64 + 128 := rfl
  refine ⟨rfl, rfl, rfl, rfl, rfl, rfl, ?_, ?_, ?_, fun _ => rfl, rfl⟩
  · have h14 : (uuid_str b).data[14]? =
        some (byteHi (set_version_random (set_variant_rfc4122 b) 6)) := rfl
    rw [h14, h6]
    have hv : (b 6 % 16 + 64) / 16 = 4 := by omega
    unfold byteHi
    rw [hv]
    decide
  · have h19 : (uuid_str b).data[19]? =
        some (byteHi (set_version_random (set_variant_rfc4122 b) 8)) := rfl
    refine ⟨byteHi (set_version_random (set_variant_rfc4122 b) 8), h19, ?_⟩
    rw [h8]
    have hv : (b 8 % 64 + 128) / 16 = b 8 % 64 / 16 + 8 := by omega
    unfold byteHi
    rw [hv]
    have hcase : b 8 % 64 / 16 = 0 ∨ b 8 % 64 / 16 = 1 ∨
        b 8 % 64 / 16 = 2 ∨ b 8 % 64 / 16 = 3 := by omega
    rcases hcase with h | h | h | h <;> rw [h] <;> decide
  · exact uuidChars_hex_or_hyphen _ (set_bits_lt b hb)

theorem uuid_str_format_witness :
    ((fun _ : Fin 16 => (0 : Nat)) 0 < 256) ∧
    (uuid_str (fun _ => 0)).length = 36 ∧
    (uuid_str (fun _ => 0)).data[14]? = some '4' :=
  ⟨by decide,
    (uuid_str_format (fun _ => 0) (by decide)).1,
    (uuid_str_format (fun _ => 0) (by decide)).2.2.2.2.2.2.1⟩

end Rpc

end TendermintRs
